import Mathlib

/-!
Verification of the `calcis` 2D vector library (`src/vec2.rs`).

The library is a generic pair type `Vec2<T>` with component-wise arithmetic
operators and geometric operations (`magnitude`, `normalized`, `dot`, `cross`,
`angle`, `rotate_around`) that convert components to `f32`.  We embed the
code shallowly: the generic arithmetic operators are translated over an
arbitrary element type, and the `f32` geometric operations are idealized over
the real numbers (so `sqrt`, `cos`, `sin`, `acos` are `Real.sqrt`,
`Real.cos`, `Real.sin`, `Real.arccos`).  Rust's panicking integer division by
zero is modelled by `Option`.
-/

/-- The `Vec2<T>` struct of `vec2.rs`: a pair of components `x`, `y`. -/
structure Vec2 (α : Type) where
  x : α
  y : α
deriving DecidableEq

namespace Vec2

/-- `Vec2::new(x, y)` (`vec2.rs` lines 102-106): builds the pair, no validation. -/
def new (x y : α) : Vec2 α := ⟨x, y⟩

/-- `impl Default for Vec2<T>` (`vec2.rs` lines 6-13): both fields are the
element type's default value. -/
def default [Inhabited α] : Vec2 α := ⟨Inhabited.default, Inhabited.default⟩

/-- `impl Add for Vec2<T>` (`vec2.rs` lines 109-121): component-wise sum. -/
def add [Add α] (a b : Vec2 α) : Vec2 α := ⟨a.x + b.x, a.y + b.y⟩

/-- `impl Sub for Vec2<T>` (`vec2.rs` lines 124-136): component-wise difference. -/
def sub [Sub α] (a b : Vec2 α) : Vec2 α := ⟨a.x - b.x, a.y - b.y⟩

/-- `impl Mul<T> for Vec2<T>` (`vec2.rs` lines 139-151): scalar scale. -/
def mulScalar [Mul α] (a : Vec2 α) (s : α) : Vec2 α := ⟨a.x * s, a.y * s⟩

/-- `impl Mul for Vec2<T>` (`vec2.rs` lines 153-165): Hadamard product. -/
def mul [Mul α] (a b : Vec2 α) : Vec2 α := ⟨a.x * b.x, a.y * b.y⟩

/-- `impl Div<T> for Vec2<T>` (`vec2.rs` lines 168-180): each component divided
by the scalar, using the element type's division. -/
def divScalar [Div α] (a : Vec2 α) (s : α) : Vec2 α := ⟨a.x / s, a.y / s⟩

/-- `impl Div for Vec2<T>` (`vec2.rs` lines 182-194): component-wise division. -/
def div [Div α] (a b : Vec2 α) : Vec2 α := ⟨a.x / b.x, a.y / b.y⟩

/-- `impl Div<T> for Vec2<T>` instantiated at a Rust integer element type:
Rust integer division by zero panics, which we model as `none`; on the
non-panicking path the result is exactly the generic component-wise division. -/
def divScalarChecked (a : Vec2 ℤ) (s : ℤ) : Option (Vec2 ℤ) :=
  if s = 0 then none else some (divScalar a s)

/-- `impl PartialEq for Vec2<T>` (`vec2.rs` lines 24-30): both components are
converted to `f32` (idealized as ℝ) and compared with absolute tolerance
`0.0001`, strictly. -/
def eq (a b : Vec2 ℝ) : Prop :=
  |a.x - b.x| < 0.0001 ∧ |a.y - b.y| < 0.0001

/-- `Vec2::magnitude` (`vec2.rs` lines 36-40): `sqrt(x*x + y*y)` after
converting the components to `f32` (idealized as ℝ). -/
noncomputable def magnitude (v : Vec2 ℝ) : ℝ :=
  Real.sqrt (v.x * v.x + v.y * v.y)

/-- `Vec2::normalized` (`vec2.rs` lines 42-49): the zero vector when the
magnitude is zero, otherwise each component divided by the magnitude. -/
noncomputable def normalized (v : Vec2 ℝ) : Vec2 ℝ :=
  if magnitude v = 0 then new 0 0
  else new (v.x / magnitude v) (v.y / magnitude v)

/-- State-passing translation of `Vec2::normalized`'s `&mut self` receiver:
the body of the method reads `self.x`, `self.y` and never assigns to `self`,
so the post-state of the receiver is its pre-state. -/
noncomputable def normalizedMut (v : Vec2 ℝ) : Vec2 ℝ × Vec2 ℝ :=
  (normalized v, v)

/-- `Vec2::dot` (`vec2.rs` lines 51-57): `x1*x2 + y1*y2` in `f32` (idealized
as ℝ). -/
def dot (v w : Vec2 ℝ) : ℝ := v.x * w.x + v.y * w.y

/-- `Vec2::cross` (`vec2.rs` lines 59-65): `x1*y2 - y1*x2` in `f32` (idealized
as ℝ). -/
def cross (v w : Vec2 ℝ) : ℝ := v.x * w.y - v.y * w.x

/-- `Vec2::angle` (`vec2.rs` lines 67-76): `0.0` when either magnitude is
zero, otherwise `acos(dot / (mag1 * mag2))`. -/
noncomputable def angle (v w : Vec2 ℝ) : ℝ :=
  if magnitude v = 0 ∨ magnitude w = 0 then 0
  else Real.arccos (dot v w / (magnitude v * magnitude w))

/-- `Vec2::rotate_around` (`vec2.rs` lines 78-86): translate by `-pivot`,
apply the standard counter-clockwise rotation matrix, translate back. -/
noncomputable def rotate_around (v pivot : Vec2 ℝ) (θ : ℝ) : Vec2 ℝ :=
  let cos_theta := Real.cos θ
  let sin_theta := Real.sin θ
  let x := v.x - pivot.x
  let y := v.y - pivot.y
  let rotated_x := x * cos_theta - y * sin_theta
  let rotated_y := x * sin_theta + y * cos_theta
  new (rotated_x + pivot.x) (rotated_y + pivot.y)

/-- State-passing translation of `Vec2::rotate_around`'s two `&self`-style
borrowed arguments (receiver and pivot): the body never assigns to either, so
both post-states equal the pre-states. -/
noncomputable def rotate_aroundMut (v pivot : Vec2 ℝ) (θ : ℝ) :
    Vec2 ℝ × Vec2 ℝ × Vec2 ℝ :=
  (rotate_around v pivot θ, v, pivot)

end Vec2

/-! ## Helper lemmas -/

lemma Vec2.magnitude_nonneg (v : Vec2 ℝ) : 0 ≤ Vec2.magnitude v :=
  Real.sqrt_nonneg _

lemma Vec2.mul_self_magnitude (v : Vec2 ℝ) :
    Vec2.magnitude v * Vec2.magnitude v = v.x * v.x + v.y * v.y := by
  have h : 0 ≤ v.x * v.x + v.y * v.y :=
    add_nonneg (mul_self_nonneg v.x) (mul_self_nonneg v.y)
  exact Real.mul_self_sqrt h

lemma Vec2.magnitude_three_four : Vec2.magnitude (Vec2.new (3:ℝ) 4) = 5 := by
  unfold Vec2.magnitude Vec2.new
  rw [show (3:ℝ) * 3 + 4 * 4 = 5 ^ 2 by norm_num]
  exact Real.sqrt_sq (by norm_num)

lemma Vec2.magnitude_unit_x : Vec2.magnitude (Vec2.new (1:ℝ) 0) = 1 := by
  unfold Vec2.magnitude Vec2.new
  simp

lemma Vec2.magnitude_unit_y : Vec2.magnitude (Vec2.new (0:ℝ) 1) = 1 := by
  unfold Vec2.magnitude Vec2.new
  simp

/-! ## Claims -/

/-- C4: the geometric scalar operations match the spec's reference formulas
(idealizing `f32` arithmetic over ℝ): `magnitude` is `sqrt(x*x + y*y)`,
`dot` is `x1*x2 + y1*y2`, `cross` is `x1*y2 - y1*x2`; concretely the
magnitude of `(3,4)` is `5`, `dot((1,2),(3,4))` is `11` and
`cross((1,2),(3,4))` is `-2`. -/
theorem geometry_reference_formulas :
    (∀ v : Vec2 ℝ, Vec2.magnitude v = Real.sqrt (v.x * v.x + v.y * v.y)) ∧
    (∀ v w : Vec2 ℝ, Vec2.dot v w = v.x * w.x + v.y * w.y) ∧
    (∀ v w : Vec2 ℝ, Vec2.cross v w = v.x * w.y - v.y * w.x) ∧
    Vec2.magnitude (Vec2.new 3 4) = 5 ∧
    Vec2.dot (Vec2.new 1 2) (Vec2.new 3 4) = 11 ∧
    Vec2.cross (Vec2.new 1 2) (Vec2.new 3 4) = -2 := by
  refine ⟨fun v => rfl, fun v w => rfl, fun v w => rfl,
    Vec2.magnitude_three_four, ?_, ?_⟩ <;>
    simp [Vec2.dot, Vec2.cross, Vec2.new] <;> norm_num

/-- C1: `normalized` returns the zero vector when the magnitude is zero, and
for nonzero magnitude it returns a vector of magnitude exactly `1` whose
direction matches the receiver (`dot(result, original) / magnitude(original)`
equals `1`); in the real-valued idealization every component is a well-defined
real number, so no NaN or infinity arises. -/
theorem normalized_spec (v : Vec2 ℝ) :
    (Vec2.magnitude v = 0 → Vec2.normalized v = Vec2.new 0 0) ∧
    (Vec2.magnitude v ≠ 0 →
      Vec2.magnitude (Vec2.normalized v) = 1 ∧
      Vec2.dot (Vec2.normalized v) v / Vec2.magnitude v = 1) := by
  constructor
  · intro h
    rw [Vec2.normalized, if_pos h]
  · intro h
    have hm := Vec2.mul_self_magnitude v
    have hmm : Vec2.magnitude v * Vec2.magnitude v ≠ 0 := mul_ne_zero h h
    constructor
    · rw [Vec2.normalized, if_neg h]
      show Real.sqrt (v.x / Vec2.magnitude v * (v.x / Vec2.magnitude v) +
        v.y / Vec2.magnitude v * (v.y / Vec2.magnitude v)) = 1
      have h1 : v.x / Vec2.magnitude v * (v.x / Vec2.magnitude v) +
          v.y / Vec2.magnitude v * (v.y / Vec2.magnitude v)
          = (v.x * v.x + v.y * v.y) /
            (Vec2.magnitude v * Vec2.magnitude v) := by ring
      rw [h1, ← hm, div_self hmm, Real.sqrt_one]
    · rw [Vec2.normalized, if_neg h]
      show (v.x / Vec2.magnitude v * v.x + v.y / Vec2.magnitude v * v.y) /
        Vec2.magnitude v = 1
      have h1 : (v.x / Vec2.magnitude v * v.x + v.y / Vec2.magnitude v * v.y) /
          Vec2.magnitude v
          = (v.x * v.x + v.y * v.y) /
            (Vec2.magnitude v * Vec2.magnitude v) := by ring
      rw [h1, ← hm, div_self hmm]

/-- C1 witness: at `(3,4)` the normalized vector has magnitude `1` and
preserved direction, and `normalized (0,0) = (0,0)`. -/
theorem normalized_spec_witness :
    (Vec2.magnitude (Vec2.normalized (Vec2.new (3:ℝ) 4)) = 1 ∧
      Vec2.dot (Vec2.normalized (Vec2.new (3:ℝ) 4)) (Vec2.new 3 4) /
        Vec2.magnitude (Vec2.new (3:ℝ) 4) = 1) ∧
    Vec2.normalized (Vec2.new (0:ℝ) 0) = Vec2.new 0 0 :=
  ⟨(normalized_spec (Vec2.new 3 4)).2
      (by rw [Vec2.magnitude_three_four]; norm_num),
   (normalized_spec (Vec2.new 0 0)).1
      (by simp [Vec2.magnitude, Vec2.new])⟩

/-- C2: `angle` is `acos(dot / (mag1 * mag2))` whenever both magnitudes are
nonzero, returns `0` when either magnitude is zero, and
`angle((1,0),(0,1))` is exactly `π/2`. -/
theorem angle_spec :
    (∀ v w : Vec2 ℝ, Vec2.magnitude v ≠ 0 → Vec2.magnitude w ≠ 0 →
      Vec2.angle v w =
        Real.arccos (Vec2.dot v w / (Vec2.magnitude v * Vec2.magnitude w))) ∧
    (∀ v w : Vec2 ℝ, Vec2.magnitude v = 0 ∨ Vec2.magnitude w = 0 →
      Vec2.angle v w = 0) ∧
    Vec2.angle (Vec2.new 1 0) (Vec2.new 0 1) = Real.pi / 2 := by
  refine ⟨?_, ?_, ?_⟩
  · intro v w hv hw
    rw [Vec2.angle, if_neg (by tauto)]
  · intro v w h
    rw [Vec2.angle, if_pos h]
  · rw [Vec2.angle, if_neg]
    · have hd : Vec2.dot (Vec2.new (1:ℝ) 0) (Vec2.new 0 1) = 0 := by
        simp [Vec2.dot, Vec2.new]
      rw [hd, Vec2.magnitude_unit_x, Vec2.magnitude_unit_y]
      norm_num [Real.arccos_zero]
    · rw [Vec2.magnitude_unit_x, Vec2.magnitude_unit_y]
      norm_num

/-- C2 witness: at `(1,0)` and `(0,1)` both magnitudes are nonzero and the
angle is computed by the `acos` formula. -/
theorem angle_spec_witness :
    Vec2.angle (Vec2.new (1:ℝ) 0) (Vec2.new 0 1) =
      Real.arccos (Vec2.dot (Vec2.new (1:ℝ) 0) (Vec2.new 0 1) /
        (Vec2.magnitude (Vec2.new (1:ℝ) 0) * Vec2.magnitude (Vec2.new (0:ℝ) 1))) :=
  angle_spec.1 (Vec2.new 1 0) (Vec2.new 0 1)
    (by rw [Vec2.magnitude_unit_x]; norm_num)
    (by rw [Vec2.magnitude_unit_y]; norm_num)

/-- C3: equality on `Vec2` is approximate and component-wise with strict
epsilon `0.0001`: it holds exactly when both component-wise absolute
differences (after conversion to the common floating representation,
idealized as ℝ) are below `0.0001`; identically constructed vectors compare
equal, and vectors differing by more than `0.0001` in either component
compare unequal. -/
theorem approx_eq_spec :
    (∀ a b : Vec2 ℝ,
      Vec2.eq a b ↔ (|a.x - b.x| < 0.0001 ∧ |a.y - b.y| < 0.0001)) ∧
    (∀ x y : ℝ, Vec2.eq (Vec2.new x y) (Vec2.new x y)) ∧
    (∀ a b : Vec2 ℝ,
      0.0001 < |a.x - b.x| ∨ 0.0001 < |a.y - b.y| → ¬ Vec2.eq a b) := by
  refine ⟨fun a b => Iff.rfl, ?_, ?_⟩
  · intro x y
    simp only [Vec2.eq, Vec2.new, sub_self, abs_zero]
    norm_num
  · intro a b h hab
    rcases h with h | h
    · exact absurd hab.1 (by linarith)
    · exact absurd hab.2 (by linarith)

/-- C3 witness: `(0,0)` and `(1,0)` differ by more than `0.0001` in `x`, so
they compare unequal. -/
theorem approx_eq_spec_witness :
    ¬ Vec2.eq (Vec2.new (0:ℝ) 0) (Vec2.new 1 0) :=
  approx_eq_spec.2.2 (Vec2.new 0 0) (Vec2.new 1 0)
    (Or.inl (by simp [Vec2.new]; norm_num))

/-- C5: rotation round-trips exactly (hence within any positive epsilon):
rotating about a pivot by `θ` and then by `-θ` returns the original vector. -/
theorem rotate_around_roundtrip (v p : Vec2 ℝ) (θ : ℝ) :
    Vec2.rotate_around (Vec2.rotate_around v p θ) p (-θ) = v := by
  have h := Real.sin_sq_add_cos_sq θ
  cases v with
  | mk vx vy =>
    cases p with
    | mk px py =>
      simp only [Vec2.rotate_around, Vec2.new, Real.cos_neg, Real.sin_neg,
        Vec2.mk.injEq]
      constructor
      · linear_combination (vx - px) * h
      · linear_combination (vy - py) * h

/-- C6: addition, subtraction, scalar multiplication and Hadamard
multiplication are pure component-wise operations returning a new vector,
with scalar and vector multiplication as distinct functions. -/
theorem arith_componentwise {α : Type} [Add α] [Sub α] [Mul α]
    (a b : Vec2 α) (s : α) :
    Vec2.add a b = Vec2.new (a.x + b.x) (a.y + b.y) ∧
    Vec2.sub a b = Vec2.new (a.x - b.x) (a.y - b.y) ∧
    Vec2.mulScalar a s = Vec2.new (a.x * s) (a.y * s) ∧
    Vec2.mul a b = Vec2.new (a.x * b.x) (a.y * b.y) :=
  ⟨rfl, rfl, rfl, rfl⟩

/-- C6 witness: the component-wise equations at the concrete integer vectors
`(2,3)` and `(4,5)` with scalar `2`. -/
theorem arith_componentwise_witness :
    Vec2.add (Vec2.new (2:ℤ) 3) (Vec2.new 4 5) = Vec2.new (2 + 4) (3 + 5) ∧
    Vec2.sub (Vec2.new (2:ℤ) 3) (Vec2.new 4 5) = Vec2.new (2 - 4) (3 - 5) ∧
    Vec2.mulScalar (Vec2.new (2:ℤ) 3) 2 = Vec2.new (2 * 2) (3 * 2) ∧
    Vec2.mul (Vec2.new (2:ℤ) 3) (Vec2.new 4 5) = Vec2.new (2 * 4) (3 * 5) :=
  arith_componentwise (Vec2.new 2 3) (Vec2.new 4 5) 2

/-- C7: division is component-wise: for a nonzero scalar `s`,
`a / s = (a.x / s, a.y / s)`, and for a divisor vector with both components
nonzero, `a / b = (a.x / b.x, a.y / b.y)`; dividing by a zero integer scalar
follows the element type's native semantics, i.e. it is a fault (modelled as
`none`), not a silently handled value. -/
theorem div_componentwise :
    (∀ (a : Vec2 ℝ) (s : ℝ), s ≠ 0 →
      Vec2.divScalar a s = Vec2.new (a.x / s) (a.y / s)) ∧
    (∀ a b : Vec2 ℝ, b.x ≠ 0 → b.y ≠ 0 →
      Vec2.div a b = Vec2.new (a.x / b.x) (a.y / b.y)) ∧
    (∀ (a : Vec2 ℤ) (s : ℤ), s ≠ 0 →
      Vec2.divScalarChecked a s = some (Vec2.divScalar a s)) ∧
    (∀ a : Vec2 ℤ, Vec2.divScalarChecked a 0 = none) := by
  refine ⟨fun a s h => rfl, fun a b hx hy => rfl, ?_, ?_⟩
  · intro a s h
    rw [Vec2.divScalarChecked, if_neg h]
  · intro a
    rw [Vec2.divScalarChecked, if_pos rfl]

/-- C7 witness: `(10,20) / 2` is component-wise over ℝ and over ℤ, and the
integer division by the zero scalar faults. -/
theorem div_componentwise_witness :
    Vec2.divScalar (Vec2.new (10:ℝ) 20) 2 =
      Vec2.new ((Vec2.new (10:ℝ) 20).x / 2) ((Vec2.new (10:ℝ) 20).y / 2) ∧
    Vec2.divScalarChecked (Vec2.new (10:ℤ) 20) 2 =
      some (Vec2.divScalar (Vec2.new (10:ℤ) 20) 2) ∧
    Vec2.divScalarChecked (Vec2.new (10:ℤ) 20) 0 = none :=
  ⟨div_componentwise.1 (Vec2.new 10 20) 2 (by norm_num),
   div_componentwise.2.2.1 (Vec2.new 10 20) 2 (by norm_num),
   div_componentwise.2.2.2 (Vec2.new 10 20)⟩

/-- C8: `new(x, y)` stores its arguments exactly and without validation, and
`default()` is the all-zero vector for numeric element types (shown at ℤ
and ℝ). -/
theorem construction_spec {α : Type} (x y : α) :
    (Vec2.new x y).x = x ∧ (Vec2.new x y).y = y ∧
    (Vec2.default : Vec2 ℤ) = Vec2.new 0 0 ∧
    (Vec2.default : Vec2 ℝ) = Vec2.new 0 0 :=
  ⟨rfl, rfl, rfl, rfl⟩

/-- C9: no operation observably mutates its operands: the state-passing
translation of `normalized`'s `&mut self` receiver leaves both fields of
the receiver unchanged while returning the pure result, and `rotate_around`
leaves the receiver and the pivot unchanged, returning a new vector. -/
theorem no_observable_mutation (v p : Vec2 ℝ) (θ : ℝ) :
    (Vec2.normalizedMut v).2.x = v.x ∧ (Vec2.normalizedMut v).2.y = v.y ∧
    (Vec2.normalizedMut v).1 = Vec2.normalized v ∧
    (Vec2.rotate_aroundMut v p θ).2.1 = v ∧
    (Vec2.rotate_aroundMut v p θ).2.2 = p ∧
    (Vec2.rotate_aroundMut v p θ).1 = Vec2.rotate_around v p θ :=
  ⟨rfl, rfl, rfl, rfl, rfl, rfl⟩

/-- C10: the approximate equality is not transitive: with `x` components
`0`, `0.00008` and `0.00016` the first two pairs compare equal but the
outer pair does not. -/
theorem approx_eq_not_transitive :
    Vec2.eq (Vec2.new (0:ℝ) 0) (Vec2.new 0.00008 0) ∧
    Vec2.eq (Vec2.new (0.00008:ℝ) 0) (Vec2.new 0.00016 0) ∧
    ¬ Vec2.eq (Vec2.new (0:ℝ) 0) (Vec2.new 0.00016 0) := by
  simp only [Vec2.eq, Vec2.new, abs_lt]
  norm_num

/-- C5 witness: the round-trip at `v = (1,2)`, `pivot = (3,4)`, `θ = π/3`. -/
theorem rotate_around_roundtrip_witness :
    Vec2.rotate_around
      (Vec2.rotate_around (Vec2.new (1:ℝ) 2) (Vec2.new 3 4) (Real.pi / 3))
      (Vec2.new 3 4) (-(Real.pi / 3)) = Vec2.new 1 2 :=
  rotate_around_roundtrip (Vec2.new 1 2) (Vec2.new 3 4) (Real.pi / 3)

/-- C8 witness: `new(1, 2)` over ℤ stores its arguments, and the defaults are
the zero vectors. -/
theorem construction_spec_witness :
    (Vec2.new (1:ℤ) 2).x = 1 ∧ (Vec2.new (1:ℤ) 2).y = 2 ∧
    (Vec2.default : Vec2 ℤ) = Vec2.new 0 0 ∧
    (Vec2.default : Vec2 ℝ) = Vec2.new 0 0 :=
  construction_spec 1 2

/-- C9 witness: at the concrete receiver `(3,4)`, pivot `(1,2)` and angle `1`
no operand is mutated. -/
theorem no_observable_mutation_witness :
    (Vec2.normalizedMut (Vec2.new (3:ℝ) 4)).2.x = (Vec2.new (3:ℝ) 4).x ∧
    (Vec2.normalizedMut (Vec2.new (3:ℝ) 4)).2.y = (Vec2.new (3:ℝ) 4).y ∧
    (Vec2.normalizedMut (Vec2.new (3:ℝ) 4)).1 =
      Vec2.normalized (Vec2.new (3:ℝ) 4) ∧
    (Vec2.rotate_aroundMut (Vec2.new (3:ℝ) 4) (Vec2.new 1 2) 1).2.1 =
      Vec2.new (3:ℝ) 4 ∧
    (Vec2.rotate_aroundMut (Vec2.new (3:ℝ) 4) (Vec2.new 1 2) 1).2.2 =
      Vec2.new (1:ℝ) 2 ∧
    (Vec2.rotate_aroundMut (Vec2.new (3:ℝ) 4) (Vec2.new 1 2) 1).1 =
      Vec2.rotate_around (Vec2.new (3:ℝ) 4) (Vec2.new 1 2) 1 :=
  no_observable_mutation (Vec2.new 3 4) (Vec2.new 1 2) 1
